import Mathlib

/-!
Verification of the device telemetry lifecycle manager of this repository
(`src/iot-client/device_client.py`) against its specification.

The Python module is embedded shallowly: the mutable module-level dicts
(`device_telemetry_data`, `last_storage_time`, `telemetry_buffer`,
`day_start_times`) and the `telemetry_data` table become one explicit
`ClientState`; each coroutine body becomes a pure state-transforming
function; wall-clock reads become an explicit `now : Nat` argument
(Unix seconds); float telemetry values are carried opaquely as `Int`;
database failures (any operation of a session that raises, answered by
`db.rollback()`) become an explicit `dbOk : Bool` argument.
-/

namespace IoTClient

/-- Decoded per-phase readings: the four array-valued telemetry fields
(`voltages`, `currents`, `frequency`, `power`) that `device_client.py`
carries through its buffer and into the database. Values are opaque. -/
structure Readings where
  voltages : List Int
  currents : List Int
  frequency : List Int
  power : List Int
deriving Repr, DecidableEq

def emptyReadings : Readings := ⟨[], [], [], []⟩

/-- One row of the `telemetry_data` table (class `TelemetryData`,
`device_client.py` lines 37-48). `id` is the autoincrement primary key. -/
structure Row where
  id : Nat
  device_id : String
  voltages : List Int
  currents : List Int
  frequency : List Int
  power : List Int
  timestamp : Nat
  day_number : Int
  is_connected : Bool
deriving Repr, DecidableEq

/-- The reading arrays a row persists. -/
def rowReadings (r : Row) : Readings := ⟨r.voltages, r.currents, r.frequency, r.power⟩

/-- Entry of the `day_start_times` dict (lines 230-235). `current_day` is
written once at initialization and never updated afterwards: the code
recomputes the day tag from `absolute_day` on every call, so the stored
field is never read after initialization. -/
structure DayInfo where
  start_time : Nat
  current_day : Int
  absolute_day : Nat
deriving Repr, DecidableEq

/-- Entry of the `device_telemetry_data` defaultdict (lines 70-77).
`isConnected` is absent from the default value and only appears once an
update writes it, hence `Option Bool`. -/
structure LiveView where
  voltages : List Int
  currents : List Int
  frequency : List Int
  power : List Int
  timestamp : Option Nat
  device_id : Option String
  isConnected : Option Bool
deriving Repr, DecidableEq

/-- The defaultdict default value (lines 70-77). -/
def defaultLiveView : LiveView := ⟨[], [], [], [], none, none, none⟩

/-- Association-list lookup, standing for a Python dict read. -/
def alookup (k : String) : List (String × α) → Option α
  | [] => none
  | (k2, v) :: rest => if k2 = k then some v else alookup k rest

/-- Association-list update, standing for a Python dict write: an existing
key keeps its position, a new key is appended (dict insertion order). -/
def ainsert (k : String) (v : α) : List (String × α) → List (String × α)
  | [] => [(k, v)]
  | (k2, v2) :: rest => if k2 = k then (k, v) :: rest else (k2, v2) :: ainsert k v rest

/-- The module-level mutable state of `device_client.py` plus the
`telemetry_data` table. `nextId` is the table's next primary key. -/
structure ClientState where
  db : List Row
  nextId : Nat
  device_telemetry_data : List (String × LiveView)
  last_storage_time : List (String × Nat)
  telemetry_buffer : List (String × List Readings)
  day_start_times : List (String × DayInfo)
deriving Repr, DecidableEq

def emptyState : ClientState := ⟨[], 0, [], [], [], []⟩

/-- Line 89: the accelerated slot duration, 120 seconds. -/
def DAY_DURATION_SECONDS : Nat := 120

/-- Lines 136 and 272: `valid_days = [1, 2, 3]`, as the membership test
`day_number in valid_days`. -/
def isValidDay (d : Int) : Bool := d == 1 || d == 2 || d == 3

/-- Lines 230-235: the day-tracking entry created for a device first seen
at `now`: start of day `now`, day 1, absolute day 1. -/
def initDayInfo (now : Nat) : DayInfo := ⟨now, 1, 1⟩

/-- Lines 240-249: elapsed whole slots since `start_time`; if at least one
has elapsed, advance `start_time` by that multiple of the slot duration and
advance `absolute_day` by the count. (`int(x)` on the nonnegative float
elapsed/duration is truncation, i.e. `Nat` division.) -/
def updatedDayInfo (di : DayInfo) (now : Nat) : DayInfo :=
  let days_elapsed := (now - di.start_time) / DAY_DURATION_SECONDS
  if 0 < days_elapsed then
    { di with start_time := di.start_time + days_elapsed * DAY_DURATION_SECONDS,
              absolute_day := di.absolute_day + days_elapsed }
  else di

/-- Lines 253 and 268: `current_day = ((absolute_day - 1) % 3) + 1`
(Python `%` on a positive modulus is `Int.emod`). -/
def slotOf (absolute_day : Nat) : Int := ((absolute_day : Int) - 1) % 3 + 1

/-- Lines 229-268 of `manage_rolling_data`: the day-tracking entry after
the call, starting from the stored entry or, for a first-seen device, from
`initDayInfo now`. -/
def manageDayInfo (st : ClientState) (device_id : String) (now : Nat) : DayInfo :=
  updatedDayInfo ((alookup device_id st.day_start_times).getD (initDayInfo now)) now

/-- Line 241: `days_elapsed` as `manage_rolling_data` computes it. -/
def manageDaysElapsed (st : ClientState) (device_id : String) (now : Nat) : Nat :=
  (now - ((alookup device_id st.day_start_times).getD (initDayInfo now)).start_time)
    / DAY_DURATION_SECONDS

/-- Lines 257-288 of `manage_rolling_data`: the deletions the call issues
on the table. When at least one slot has elapsed and the advanced absolute
day exceeds 3 (line 258), delete the device's rows of the slot being
overwritten (lines 260-263); then delete the device's rows whose day
number is invalid (the safety check, lines 272-288). -/
def manageClean (st : ClientState) (device_id : String) (now : Nat) : List Row :=
  let current_day := slotOf (manageDayInfo st device_id now).absolute_day
  let db1 :=
    if 0 < manageDaysElapsed st device_id now ∧ 3 < (manageDayInfo st device_id now).absolute_day then
      st.db.filter fun r => !(r.device_id == device_id && r.day_number == current_day)
    else st.db
  db1.filter fun r => !(r.device_id == device_id && !isValidDay r.day_number)

/-- Lines 295-305: the one new row the call inserts, tagged with the
recomputed current day. -/
def manageNewRow (st : ClientState) (device_id : String) (data : Readings) (now : Nat) : Row :=
  ⟨st.nextId, device_id, data.voltages, data.currents, data.frequency, data.power,
   now, slotOf (manageDayInfo st device_id now).absolute_day, true⟩

/-- `manage_rolling_data` (lines 222-314): day tracking, the
delete-the-overwritten-slot step, the invalid-day safety cleanup, and the
insert of one new row, committed once at the end (line 308). `dbOk =
false` stands for any database operation of the call raising: the
`except` branch rolls the session back, so the table keeps its prior
contents, while the in-process `day_start_times` mutations (lines 230-253,
made before the database work is committed) persist either way. -/
def manage_rolling_data (st : ClientState) (device_id : String) (data : Readings)
    (now : Nat) (dbOk : Bool) : ClientState :=
  let dst := ainsert device_id (manageDayInfo st device_id now) st.day_start_times
  if dbOk then
    { st with db := manageClean st device_id now ++ [manageNewRow st device_id data now],
              nextId := st.nextId + 1, day_start_times := dst }
  else
    { st with day_start_times := dst }

/-- The body of the per-device branch of `periodic_storage_task`
(lines 99-119): an empty buffer is skipped; a device whose last storage
was at least 5 seconds ago has its newest buffered sample stored through
`manage_rolling_data`, its last-storage time set to `now` and its buffer
cleared (regardless of whether the storage call failed, since
`manage_rolling_data` swallows its own exceptions). -/
def tick_step (now : Nat) (dbOk : String → Bool) (st : ClientState)
    (p : String × List Readings) : ClientState :=
  if p.2.isEmpty then st
  else
    let last_time := (alookup p.1 st.last_storage_time).getD 0
    if 5 ≤ now - last_time then
      let latest := p.2.getLast?.getD emptyReadings
      let st1 := manage_rolling_data st p.1 latest now (dbOk p.1)
      { st1 with last_storage_time := ainsert p.1 now st1.last_storage_time,
                 telemetry_buffer := ainsert p.1 [] st1.telemetry_buffer }
    else st

/-- One pass of the `while` body of `periodic_storage_task` (lines 94-122)
at time `now`: iterate the snapshot `list(telemetry_buffer.items())`. -/
def periodic_storage_tick (st : ClientState) (now : Nat) (dbOk : String → Bool) : ClientState :=
  st.telemetry_buffer.foldl (tick_step now dbOk) st

/-- Lines 164-173: of the records of one device and day ordered by
timestamp, `day_records[-1]`: a record with the greatest timestamp,
the later-inserted one on ties (the sort is stable). -/
def newestOf : List Row → Option Row
  | [] => none
  | r :: rest => some (rest.foldl (fun m x => if m.timestamp ≤ x.timestamp then x else m) r)

/-- Lines 162-183: for one device and one valid day, if more than one
record exists keep only the newest (delete the rows of that device and day
whose id differs from the newest record's id). -/
def cleanup_day (dev : String) (day : Int) (db : List Row) : List Row :=
  let recs := db.filter fun r => r.device_id == dev && r.day_number == day
  if 1 < recs.length then
    match newestOf recs with
    | some newest =>
        db.filter fun r => !(r.device_id == dev && r.day_number == day && r.id != newest.id)
    | none => db
  else db

/-- The per-device body of `cleanup_task` (lines 142-183): delete the
device's rows whose day number is outside `[1, 2, 3]`, then for each valid
day keep only the newest record. -/
def cleanup_device (db : List Row) (dev : String) : List Row :=
  let db1 := db.filter fun r => !(r.device_id == dev && !isValidDay r.day_number)
  cleanup_day dev 3 (cleanup_day dev 2 (cleanup_day dev 1 db1))

/-- The distinct device ids present in the table (line 139). -/
def distinctDevices (db : List Row) : List String := (db.map Row.device_id).dedup

/-- One pass of the `while` body of `cleanup_task` (lines 131-185): the
reconciliation sweep over every device that has data. -/
def cleanup_pass (db : List Row) : List Row :=
  (distinctDevices db).foldl cleanup_device db

/-- An event-body payload after `json.loads`: which of the four array keys
and four degraded scalar keys are present (lines 333-356). A field being
`some` stands for the key being present with a usable value. -/
structure Payload where
  voltages : Option (List Int)
  currents : Option (List Int)
  frequency : Option (List Int)
  power : Option (List Int)
  voltage : Option Int
  current : Option Int
  freq : Option Int
  pwr : Option Int
deriving Repr, DecidableEq

/-- Line 333: `any(key in telemetry_data for key in [voltages currents
frequency power])`. -/
def hasArrayFields (p : Payload) : Bool :=
  p.voltages.isSome || p.currents.isSome || p.frequency.isSome || p.power.isSome

/-- Lines 343-357: a present degraded scalar becomes a singleton array, an
absent one the empty array. -/
def scalarToList : Option Int → List Int
  | some x => [x]
  | none => []

/-- An inbound event as `process_event` sees it: the device id from the
system properties (absent for line 409's branch) and the decoded body
(`none` when `json.loads` or a `float(...)` conversion raises, which the
handler's `except` catches before any state was mutated). -/
structure Event where
  device_id : Option String
  body : Option Payload
deriving Repr, DecidableEq

/-- The arrays the two decode shapes produce (lines 338-376 and 385-404):
the structured shape reads the four array keys with `[]` defaults; the
degraded shape wraps each present scalar into a singleton array. -/
def decodedReadings (p : Payload) : Readings :=
  if hasArrayFields p then
    ⟨p.voltages.getD [], p.currents.getD [], p.frequency.getD [], p.power.getD []⟩
  else
    ⟨scalarToList p.voltage, scalarToList p.current, scalarToList p.freq, scalarToList p.pwr⟩

/-- `process_event` (lines 316-412): drop the event when it has no device
id or its body fails to decode; otherwise overwrite the device's live view
with the decoded arrays and append them to the device's buffer. -/
def process_event (st : ClientState) (ev : Event) (now : Nat) : ClientState :=
  match ev.device_id with
  | none => st
  | some d =>
    match ev.body with
    | none => st
    | some p =>
      let arrs := decodedReadings p
      let lv0 := (alookup d st.device_telemetry_data).getD defaultLiveView
      let lv1 : LiveView :=
        { lv0 with voltages := arrs.voltages, currents := arrs.currents,
                   frequency := arrs.frequency, power := arrs.power,
                   timestamp := some now, device_id := some d, isConnected := some true }
      let buf := (alookup d st.telemetry_buffer).getD []
      { st with device_telemetry_data := ainsert d lv1 st.device_telemetry_data,
                telemetry_buffer := ainsert d (buf ++ [arrs]) st.telemetry_buffer }

/-- What the `/api/telemetry` route returns per device (lines 419-434):
the cached arrays and timestamp, the device id, and `isConnected` written
as the literal `True` whatever the cached state holds. -/
structure TelemetryView where
  voltages : List Int
  currents : List Int
  frequency : List Int
  power : List Int
  timestamp : Option Nat
  isConnected : Bool
  device_id : String
deriving Repr, DecidableEq

/-- `get_telemetry` (lines 419-434): one `TelemetryView` per entry of
`device_telemetry_data`. -/
def get_telemetry (st : ClientState) : List (String × TelemetryView) :=
  st.device_telemetry_data.map fun p =>
    (p.1, ⟨p.2.voltages, p.2.currents, p.2.frequency, p.2.power, p.2.timestamp, true, p.1⟩)

/-- The number of persisted records of one device carrying one day tag:
the same query `cleanup_task` issues per device and valid day. -/
def countFor (db : List Row) (dev : String) (day : Int) : Nat :=
  (db.filter fun r => r.device_id == dev && r.day_number == day).length

/-- The reconciliation postcondition for one device: every one of its
records carries a valid day tag, and no day tag is carried by more than
one of its records. -/
def deviceClean (db : List Row) (dev : String) : Prop :=
  (∀ r ∈ db, r.device_id = dev → isValidDay r.day_number = true) ∧
  ∀ day : Int, countFor db dev day ≤ 1

/-- The records of device `e` whose primary key is at least `n`: against
the key counter read before a flush tick, exactly the records the tick
persisted for `e`. -/
def deviceNewRows (db : List Row) (e : String) (n : Nat) : List Row :=
  db.filter fun r => r.device_id == e && decide (n ≤ r.id)

/-- Concrete sample readings for the scenario states below. -/
def rA : Readings := ⟨[1], [2], [3], [4]⟩

def rB : Readings := ⟨[5], [6], [7], [8]⟩

def rC : Readings := ⟨[9], [10], [11], [12]⟩

/-- Two successful flushes of device `D1`, at `t = 0` and `t = 5`: both
fall inside the first 120-second slot. -/
def slotDupState : ClientState :=
  manage_rolling_data (manage_rolling_data emptyState "D1" rA 0 true) "D1" rB 5 true

/-- A state whose live view holds readings last received at `t = 0`: the
cached view of a device that has been silent ever since. -/
def staleState : ClientState :=
  { emptyState with
    device_telemetry_data :=
      [("D1", ⟨[230], [10], [50], [2300], some 0, some "D1", some true⟩)] }

/-- A state with three samples of `D1` buffered and an empty batch for
`D2`, awaiting the flush tick. -/
def tickState : ClientState :=
  { emptyState with telemetry_buffer := [("D1", [rA, rB, rC]), ("D2", [])] }

/-- A state with one sample of `D1` buffered, used for the failing-flush
scenario. -/
def failState : ClientState :=
  { emptyState with telemetry_buffer := [("D1", [rA])] }

end IoTClient

namespace Registry

/-- Modelled from the spec: the Device Lifecycle Manager's registration
surface (`Register`, `Unregister`, `ListDevices`). The server code behind
`/api/register-device`, `/api/unregister-device` and `/api/devices` is not
among the repository's files; only its HTTP caller
(`src/iot-client/api_client_example.py`) is. Following spec section 4.1:
`Register(deviceId)` fails with `AlreadyRegistered` if present, otherwise
adds the device; `Unregister(deviceId)` fails with `NotFound` if absent,
otherwise removes it; `ListDevices()` reflects the registered set. -/
inductive RegError
  | alreadyRegistered
  | notFound
deriving Repr, DecidableEq

/-- Modelled from the spec: the registry of currently registered devices. -/
structure State where
  devices : List String
deriving Repr, DecidableEq

/-- Modelled from the spec: `Register(deviceId)` fails with
`AlreadyRegistered` if present; otherwise creates the device. -/
def register_device (r : State) (d : String) : Except RegError State :=
  if d ∈ r.devices then .error .alreadyRegistered
  else .ok ⟨r.devices ++ [d]⟩

/-- Modelled from the spec: `Unregister(deviceId)` fails with `NotFound`
if absent; otherwise clears the registry entry. -/
def unregister_device (r : State) (d : String) : Except RegError State :=
  if d ∈ r.devices then .ok ⟨r.devices.erase d⟩
  else .error .notFound

/-- Modelled from the spec: `ListDevices()`. -/
def list_devices (r : State) : List String := r.devices

/-- A call of the registration API. -/
inductive RegOp
  | reg (d : String)
  | unreg (d : String)
deriving Repr, DecidableEq

/-- One API call applied to the registry; a failed call leaves it as it
was (the error is reported to the caller). -/
def apply_op (r : State) (op : RegOp) : State :=
  match op with
  | .reg d => match register_device r d with | .ok r2 => r2 | .error _ => r
  | .unreg d => match unregister_device r d with | .ok r2 => r2 | .error _ => r

/-- A sequence of API calls from the empty registry. -/
def run_ops (ops : List RegOp) : State := ops.foldl apply_op ⟨[]⟩

/-- The spec's words, stated independently: the currently-registered set,
as set insertion and removal over the call sequence. -/
def spec_step (s : List String) (op : RegOp) : List String :=
  match op with
  | .reg d => if d ∈ s then s else d :: s
  | .unreg d => s.erase d

/-- The currently-registered set after a call sequence. -/
def spec_registered (ops : List RegOp) : List String := ops.foldl spec_step []

end Registry

namespace IoTClient

/-! ## Association-list lemmas -/

theorem alookup_ainsert_self (k : String) (v : α) (m : List (String × α)) :
    alookup k (ainsert k v m) = some v := by
  induction m with
  | nil => simp [ainsert, alookup]
  | cons h t ih =>
    obtain ⟨k2, v2⟩ := h
    by_cases hk : k2 = k
    · simp [ainsert, alookup, hk]
    · simp [ainsert, alookup, hk, ih]

theorem alookup_ainsert_ne (k k2 : String) (v : α) (m : List (String × α)) (h : k2 ≠ k) :
    alookup k (ainsert k2 v m) = alookup k m := by
  induction m with
  | nil => simp [ainsert, alookup, h]
  | cons hd t ih =>
    obtain ⟨k3, v3⟩ := hd
    by_cases hk : k3 = k2
    · subst hk
      simp [ainsert, alookup, h]
    · by_cases hk2 : k3 = k
      · simp [ainsert, alookup, hk, hk2, Ne.symm h]
      · simp [ainsert, alookup, hk, hk2, ih]

/-! ## Frame lemmas of manage_rolling_data -/

theorem manage_db_false (st : ClientState) (d : String) (x : Readings) (now : Nat) :
    (manage_rolling_data st d x now false).db = st.db := rfl

theorem manage_nextId_false (st : ClientState) (d : String) (x : Readings) (now : Nat) :
    (manage_rolling_data st d x now false).nextId = st.nextId := rfl

theorem manage_db_true (st : ClientState) (d : String) (x : Readings) (now : Nat) :
    (manage_rolling_data st d x now true).db =
      manageClean st d now ++ [manageNewRow st d x now] := rfl

theorem manage_nextId_true (st : ClientState) (d : String) (x : Readings) (now : Nat) :
    (manage_rolling_data st d x now true).nextId = st.nextId + 1 := rfl

theorem manage_buffer_eq (st : ClientState) (d : String) (x : Readings) (now : Nat) (ok : Bool) :
    (manage_rolling_data st d x now ok).telemetry_buffer = st.telemetry_buffer := by
  cases ok <;> rfl

theorem manage_last_eq (st : ClientState) (d : String) (x : Readings) (now : Nat) (ok : Bool) :
    (manage_rolling_data st d x now ok).last_storage_time = st.last_storage_time := by
  cases ok <;> rfl

theorem manage_nextId_mono (st : ClientState) (d : String) (x : Readings) (now : Nat) (ok : Bool) :
    st.nextId ≤ (manage_rolling_data st d x now ok).nextId := by
  cases ok
  · exact Nat.le_refl _
  · exact Nat.le_succ _

theorem manageClean_sublist (st : ClientState) (d : String) (now : Nat) :
    List.Sublist (manageClean st d now) st.db := by
  refine List.Sublist.trans (List.filter_sublist _) ?_
  split
  · exact List.filter_sublist _
  · exact List.Sublist.refl _

/-- C10: if any database operation inside a single `manage_rolling_data`
call raises, the session is rolled back: none of the call's deletions nor
its insert is persisted, and the retention store is exactly as before the
call (all changes are committed only by the single commit at the end). -/
theorem C10_failed_call_leaves_store (st : ClientState) (d : String) (x : Readings) (now : Nat) :
    (manage_rolling_data st d x now false).db = st.db ∧
    (manage_rolling_data st d x now false).nextId = st.nextId :=
  ⟨rfl, rfl⟩

end IoTClient

namespace IoTClient

/-! ## Slot rotation (C2) -/

/-- C2: under the day-slot rotation with 3 slots and a 120-second slot
duration, a flush after at least one elapsed slot boundary advances the
absolute slot counter by the elapsed count, advances the slot start time
by the same multiple of the duration, and recomputes the current slot as
`((counter - 1) mod 3) + 1`; concretely, a sample stored at `t = 0` is
tagged slot 1 and a sample stored at `t = 130` is tagged slot 2. -/
theorem C2_slot_rotation :
    (∀ (di : DayInfo) (now : Nat),
        1 ≤ (now - di.start_time) / DAY_DURATION_SECONDS →
        updatedDayInfo di now =
          { di with
            start_time := di.start_time +
              ((now - di.start_time) / DAY_DURATION_SECONDS) * DAY_DURATION_SECONDS,
            absolute_day := di.absolute_day + (now - di.start_time) / DAY_DURATION_SECONDS } ∧
        slotOf (updatedDayInfo di now).absolute_day =
          (((di.absolute_day + (now - di.start_time) / DAY_DURATION_SECONDS : Nat) : Int) - 1) % 3
            + 1) ∧
    DAY_DURATION_SECONDS = 120 ∧
    (manage_rolling_data emptyState "D1" rA 0 true).db.map Row.day_number = [1] ∧
    (manage_rolling_data (manage_rolling_data emptyState "D1" rA 0 true) "D1" rB 130
        true).db.map Row.day_number = [1, 2] := by
  refine ⟨?_, rfl, by decide, by decide⟩
  intro di now h
  have h0 : 0 < (now - di.start_time) / DAY_DURATION_SECONDS := h
  constructor
  · simp [updatedDayInfo, h0]
  · simp [updatedDayInfo, slotOf, h0]

/-! ## Decode (C7, C8) -/

/-- C7: decode recognizes the structured multi-value shape (any of the
four array keys present) and the degraded single-value shape, normalizes
the degraded scalars into singleton arrays, and in both cases the live
view and the appended batch entry hold the four arrays. -/
theorem C7_decode_two_shapes (st : ClientState) (d : String) (p : Payload) (now : Nat) :
    alookup d (process_event st ⟨some d, some p⟩ now).device_telemetry_data =
      some ⟨(decodedReadings p).voltages, (decodedReadings p).currents,
            (decodedReadings p).frequency, (decodedReadings p).power,
            some now, some d, some true⟩ ∧
    alookup d (process_event st ⟨some d, some p⟩ now).telemetry_buffer =
      some ((alookup d st.telemetry_buffer).getD [] ++ [decodedReadings p]) ∧
    (hasArrayFields p = true →
      decodedReadings p =
        ⟨p.voltages.getD [], p.currents.getD [], p.frequency.getD [], p.power.getD []⟩) ∧
    (hasArrayFields p = false →
      decodedReadings p =
        ⟨scalarToList p.voltage, scalarToList p.current, scalarToList p.freq,
         scalarToList p.pwr⟩) := by
  refine ⟨?_, ?_, ?_, ?_⟩
  · simp [process_event, alookup_ainsert_self]
  · simp [process_event, alookup_ainsert_self]
  · intro h
    simp [decodedReadings, h]
  · intro h
    simp [decodedReadings, h]

/-- C8: an event whose body fails to decode, or that carries no device
id, is dropped whole: the state (every live view and every batch buffer)
is unchanged, no failure escapes the handler (it is a total function),
and processing of any subsequent event proceeds exactly as it would have. -/
theorem C8_malformed_event_dropped :
    (∀ (st : ClientState) (dopt : Option String) (now : Nat),
        process_event st ⟨dopt, none⟩ now = st) ∧
    (∀ (st : ClientState) (b : Option Payload) (now : Nat),
        process_event st ⟨none, b⟩ now = st) ∧
    (∀ (st : ClientState) (dopt : Option String) (now now2 : Nat) (ev2 : Event),
        process_event (process_event st ⟨dopt, none⟩ now) ev2 now2 =
          process_event st ev2 now2) := by
  refine ⟨?_, ?_, ?_⟩
  · intro st dopt now
    cases dopt <;> rfl
  · intro st b now
    rfl
  · intro st dopt now now2 ev2
    cases dopt <;> rfl

/-! ## The read path (C5) -/

theorem alookup_view_map (l : List (String × LiveView)) (d : String) (lv : LiveView)
    (h : alookup d l = some lv) :
    alookup d (l.map fun p =>
      (p.1, (⟨p.2.voltages, p.2.currents, p.2.frequency, p.2.power, p.2.timestamp, true,
        p.1⟩ : TelemetryView))) =
      some ⟨lv.voltages, lv.currents, lv.frequency, lv.power, lv.timestamp, true, d⟩ := by
  induction l with
  | nil => simp [alookup] at h
  | cons hd t ih =>
    obtain ⟨k, v⟩ := hd
    by_cases hk : k = d
    · subst hk
      simp [alookup] at h
      subst h
      simp [alookup]
    · simp [alookup, hk] at h
      simpa [alookup, hk] using ih h

/-- C5 (amended): the next read of a device's latest telemetry always
returns the cached reading arrays and timestamp with `connected` reported
as the literal `true`, however long ago the device's last sample arrived:
the read path takes no clock input at all, and no staleness sweep exists
to force `connected = false` or clear the cached arrays. -/
theorem C5_read_reports_cached_values (st : ClientState) (d : String) (lv : LiveView)
    (h : alookup d st.device_telemetry_data = some lv) :
    alookup d (get_telemetry st) =
      some ⟨lv.voltages, lv.currents, lv.frequency, lv.power, lv.timestamp, true, d⟩ :=
  alookup_view_map st.device_telemetry_data d lv h

/-- C5 is false on the code: in `staleState` the last sample of `D1`
arrived at `t = 0` and none since, so a read at any later instant exceeds
any offline threshold; yet `get_telemetry` reports `isConnected = true`
(the route hardcodes it) and returns the stale cached array `[230]`
rather than an empty one. -/
theorem C5_counterexample :
    (alookup "D1" (get_telemetry staleState)).map TelemetryView.isConnected = some true ∧
    (alookup "D1" (get_telemetry staleState)).map TelemetryView.voltages = some [230] ∧
    ([230] : List Int) ≠ [] := by
  refine ⟨by decide, by decide, by decide⟩

/-- Witness for C5: the amended theorem applied to `staleState`. -/
theorem C5_witness :
    alookup "D1" (get_telemetry staleState) =
      some ⟨[230], [10], [50], [2300], some 0, true, "D1"⟩ :=
  C5_read_reports_cached_values staleState "D1"
    ⟨[230], [10], [50], [2300], some 0, some "D1", some true⟩ (by decide)

/-! ## Failing flush (C6) -/

/-- C6 (amended): when the storage call of a flush fails, the failure is
contained and the retention store is left unchanged (the session rolls
back), but the device's batch buffer is cleared and its last-storage time
advanced all the same: the buffered samples are dropped, and the next
cycle does not retry them. -/
theorem C6_failed_flush_clears_batch (st : ClientState) (p : String × List Readings)
    (now : Nat) (hne : p.2 ≠ [])
    (hdue : 5 ≤ now - (alookup p.1 st.last_storage_time).getD 0) :
    (tick_step now (fun _ => false) st p).db = st.db ∧
    alookup p.1 (tick_step now (fun _ => false) st p).telemetry_buffer = some [] ∧
    alookup p.1 (tick_step now (fun _ => false) st p).last_storage_time = some now := by
  have hemp : p.2.isEmpty = false := by
    simp [List.isEmpty_iff, hne]
  simp [tick_step, hemp, hdue, manage_db_false, manage_buffer_eq, manage_last_eq,
    alookup_ainsert_self]

/-- C6 is false as stated: in `failState` device `D1` has one buffered
sample; at the `t = 10` tick the storage call fails, nothing is persisted
(the store stays empty), yet the batch is cleared to empty: the buffered
sample is dropped instead of being kept for the next cycle. -/
theorem C6_counterexample :
    (periodic_storage_tick failState 10 fun _ => false).db = [] ∧
    alookup "D1" (periodic_storage_tick failState 10 fun _ => false).telemetry_buffer =
      some [] ∧
    alookup "D1" failState.telemetry_buffer = some [rA] := by
  refine ⟨by decide, by decide, by decide⟩

/-- Witness for C6: the amended theorem applied to `failState` at the
`t = 10` tick. -/
theorem C6_witness :
    (tick_step 10 (fun _ => false) failState ("D1", [rA])).db = failState.db ∧
    alookup "D1" (tick_step 10 (fun _ => false) failState ("D1", [rA])).telemetry_buffer =
      some [] ∧
    alookup "D1" (tick_step 10 (fun _ => false) failState ("D1", [rA])).last_storage_time =
      some 10 :=
  C6_failed_flush_clears_batch failState ("D1", [rA]) 10 (by decide) (by decide)

/-! ## Slot ring (C3): the counterexample -/

/-- C3 is false at this observation point: both flushes of `slotDupState`
(at `t = 0` and `t = 5`) fall inside the first slot, and the flush path
deletes nothing within an unchanged slot, so right after the second flush
device `D1` holds two persisted records tagged slot 1. -/
theorem C3_counterexample :
    countFor slotDupState.db "D1" 1 = 2 ∧ ¬ countFor slotDupState.db "D1" 1 ≤ 1 := by
  refine ⟨by decide, by decide⟩

end IoTClient

namespace IoTClient

/-! ## Reconciliation (C4, C3): sublist structure of the cleanup pass -/

theorem ids_nodup_sub {db1 db2 : List Row} (h : List.Sublist db1 db2)
    (hn : (db2.map Row.id).Nodup) : (db1.map Row.id).Nodup :=
  List.Nodup.sublist (List.Sublist.map Row.id h) hn

theorem cleanup_day_sublist (dev : String) (day : Int) (db : List Row) :
    List.Sublist (cleanup_day dev day db) db := by
  simp only [cleanup_day]
  split
  · split
    · exact List.filter_sublist _
    · exact List.Sublist.refl _
  · exact List.Sublist.refl _

theorem cleanup_device_sublist (db : List Row) (dev : String) :
    List.Sublist (cleanup_device db dev) db := by
  unfold cleanup_device
  refine List.Sublist.trans (cleanup_day_sublist _ _ _) ?_
  refine List.Sublist.trans (cleanup_day_sublist _ _ _) ?_
  refine List.Sublist.trans (cleanup_day_sublist _ _ _) ?_
  exact List.filter_sublist _

theorem foldl_cleanup_sublist (devs : List String) :
    ∀ db : List Row, List.Sublist (devs.foldl cleanup_device db) db := by
  induction devs with
  | nil => intro db; exact List.Sublist.refl _
  | cons a t ih =>
    intro db
    exact List.Sublist.trans (ih (cleanup_device db a)) (cleanup_device_sublist db a)

theorem cleanup_pass_sublist (db : List Row) : List.Sublist (cleanup_pass db) db :=
  foldl_cleanup_sublist _ db

theorem countFor_mono {db1 db2 : List Row} (h : List.Sublist db1 db2)
    (dev : String) (day : Int) : countFor db1 dev day ≤ countFor db2 dev day :=
  List.Sublist.length_le (List.Sublist.filter _ h)

theorem deviceClean_of_sublist {db1 db2 : List Row} (h : List.Sublist db1 db2)
    (dev : String) (hc : deviceClean db2 dev) : deviceClean db1 dev :=
  ⟨fun r hr => hc.1 r (h.subset hr), fun day => le_trans (countFor_mono h dev day) (hc.2 day)⟩

theorem length_le_one_of_const_id (l : List Row) (hn : (l.map Row.id).Nodup) (c : Nat)
    (hc : ∀ r ∈ l, r.id = c) : l.length ≤ 1 := by
  match l with
  | [] => simp
  | [a] => simp
  | a :: b :: t =>
    exfalso
    have ha := hc a (by simp)
    have hb := hc b (by simp)
    simp [List.nodup_cons] at hn
    exact hn.1.1 (by rw [ha, hb])

theorem newestOf_some (recs : List Row) (h : recs ≠ []) : ∃ m, newestOf recs = some m := by
  cases recs with
  | nil => exact absurd rfl h
  | cons a t => exact ⟨_, rfl⟩

end IoTClient

namespace IoTClient

/-! ## Reconciliation establishes and preserves per-device cleanliness -/

theorem cleanup_day_count_self (dev : String) (day : Int) (db : List Row)
    (hn : (db.map Row.id).Nodup) :
    countFor (cleanup_day dev day db) dev day ≤ 1 := by
  by_cases h : 1 < (db.filter fun r => r.device_id == dev && r.day_number == day).length
  · obtain ⟨m, hm⟩ := newestOf_some (db.filter fun r => r.device_id == dev && r.day_number == day)
      (by intro hnil; rw [hnil] at h; simp at h)
    have hres : cleanup_day dev day db =
        db.filter fun r => !(r.device_id == dev && r.day_number == day && r.id != m.id) := by
      simp only [cleanup_day, if_pos h, hm]
    rw [hres]
    show ((db.filter fun r => !(r.device_id == dev && r.day_number == day && r.id != m.id)).filter
      fun r => r.device_id == dev && r.day_number == day).length ≤ 1
    refine length_le_one_of_const_id _
      (ids_nodup_sub (List.Sublist.trans (List.filter_sublist _) (List.filter_sublist _)) hn)
      m.id ?_
    intro r hr
    have h1 := List.mem_filter.mp hr
    have h2 := (List.mem_filter.mp h1.1).2
    rw [Bool.and_eq_true, beq_iff_eq, beq_iff_eq] at h1
    simp [h1.2.1, h1.2.2] at h2
    exact h2
  · have hres : cleanup_day dev day db = db := by
      simp only [cleanup_day, if_neg h]
    rw [hres]
    simpa [countFor] using Nat.le_of_not_lt h

theorem cleanup_day_eq_of_le (dev : String) (day : Int) (db : List Row)
    (h : countFor db dev day ≤ 1) : cleanup_day dev day db = db := by
  have h2 : ¬ 1 < (db.filter fun r => r.device_id == dev && r.day_number == day).length := by
    simp only [countFor] at h
    omega
  simp only [cleanup_day, if_neg h2]

theorem cleanup_device_valid (db : List Row) (dev : String) :
    ∀ r ∈ cleanup_device db dev, r.device_id = dev → isValidDay r.day_number = true := by
  intro r hr hdev
  have hsub : List.Sublist (cleanup_device db dev)
      (db.filter fun r => !(r.device_id == dev && !isValidDay r.day_number)) := by
    refine List.Sublist.trans (cleanup_day_sublist _ _ _) ?_
    refine List.Sublist.trans (cleanup_day_sublist _ _ _) ?_
    exact cleanup_day_sublist _ _ _
  have h1 := (List.mem_filter.mp (hsub.subset hr)).2
  simp [hdev] at h1
  exact h1

theorem cleanup_device_count (db : List Row) (dev : String) (hn : (db.map Row.id).Nodup) :
    ∀ day : Int, countFor (cleanup_device db dev) dev day ≤ 1 := by
  have e : cleanup_device db dev = cleanup_day dev 3 (cleanup_day dev 2 (cleanup_day dev 1
      (db.filter fun r => !(r.device_id == dev && !isValidDay r.day_number)))) := rfl
  have hn1 : ((db.filter fun r =>
      !(r.device_id == dev && !isValidDay r.day_number)).map Row.id).Nodup :=
    ids_nodup_sub (List.filter_sublist _) hn
  intro day
  by_cases h1 : day = 1
  · subst h1
    rw [e]
    refine le_trans (countFor_mono (cleanup_day_sublist _ _ _) _ _) ?_
    refine le_trans (countFor_mono (cleanup_day_sublist _ _ _) _ _) ?_
    exact cleanup_day_count_self _ _ _ hn1
  by_cases h2 : day = 2
  · subst h2
    rw [e]
    refine le_trans (countFor_mono (cleanup_day_sublist _ _ _) _ _) ?_
    exact cleanup_day_count_self _ _ _ (ids_nodup_sub (cleanup_day_sublist _ _ _) hn1)
  by_cases h3 : day = 3
  · subst h3
    rw [e]
    exact cleanup_day_count_self _ _ _
      (ids_nodup_sub (cleanup_day_sublist _ _ _) (ids_nodup_sub (cleanup_day_sublist _ _ _) hn1))
  · have hnil : (cleanup_device db dev).filter
        (fun r => r.device_id == dev && r.day_number == day) = [] := by
      rw [List.filter_eq_nil_iff]
      intro r hr hcon
      rw [Bool.and_eq_true, beq_iff_eq, beq_iff_eq] at hcon
      have hv := cleanup_device_valid db dev r hr hcon.1
      rw [hcon.2] at hv
      simp [isValidDay, h1, h2, h3] at hv
    simp [countFor, hnil]

theorem cleanup_device_eq_of_clean (db : List Row) (dev : String) (hc : deviceClean db dev) :
    cleanup_device db dev = db := by
  have hdb1 : (db.filter fun r => !(r.device_id == dev && !isValidDay r.day_number)) = db := by
    rw [List.filter_eq_self]
    intro r hr
    by_cases hd : r.device_id = dev
    · simp [hd, hc.1 r hr hd]
    · simp [hd]
  have e : cleanup_device db dev = cleanup_day dev 3 (cleanup_day dev 2 (cleanup_day dev 1
      (db.filter fun r => !(r.device_id == dev && !isValidDay r.day_number)))) := rfl
  rw [e, hdb1, cleanup_day_eq_of_le dev 1 db (hc.2 1), cleanup_day_eq_of_le dev 2 db (hc.2 2),
    cleanup_day_eq_of_le dev 3 db (hc.2 3)]

theorem foldl_cleanup_clean (devs : List String) :
    ∀ (db : List Row) (dev : String), dev ∈ devs → (db.map Row.id).Nodup →
      deviceClean (devs.foldl cleanup_device db) dev := by
  induction devs with
  | nil =>
    intro db dev h
    exact absurd h (List.not_mem_nil _)
  | cons a t ih =>
    intro db dev hmem hn
    simp only [List.foldl_cons]
    rcases List.mem_cons.mp hmem with heq | ht
    · subst heq
      exact deviceClean_of_sublist (foldl_cleanup_sublist t _) dev
        ⟨cleanup_device_valid db dev, cleanup_device_count db dev hn⟩
    · exact ih (cleanup_device db a) dev ht (ids_nodup_sub (cleanup_device_sublist db a) hn)

theorem foldl_cleanup_eq_of_clean (devs : List String) :
    ∀ db : List Row, (∀ dev ∈ devs, deviceClean db dev) →
      devs.foldl cleanup_device db = db := by
  induction devs with
  | nil =>
    intro db _
    rfl
  | cons a t ih =>
    intro db h
    simp only [List.foldl_cons]
    rw [cleanup_device_eq_of_clean db a (h a (by simp))]
    exact ih db fun dev hd => h dev (by simp [hd])

theorem mem_distinctDevices {db : List Row} {dev : String} :
    dev ∈ distinctDevices db ↔ ∃ r ∈ db, r.device_id = dev := by
  simp [distinctDevices, List.mem_dedup, List.mem_map]

/-- C4: the reconciliation pass is idempotent: with distinct primary keys
(the table's id column), a second run right after a first one, with no
intervening writes, changes nothing and hence performs no deletions. -/
theorem C4_reconciliation_idempotent (db : List Row) (hn : (db.map Row.id).Nodup) :
    cleanup_pass (cleanup_pass db) = cleanup_pass db := by
  have hstep : ∀ dev ∈ distinctDevices (cleanup_pass db), deviceClean (cleanup_pass db) dev := by
    intro dev hdev
    have hdev0 : dev ∈ distinctDevices db := by
      rw [mem_distinctDevices] at hdev ⊢
      obtain ⟨r, hr, hrd⟩ := hdev
      exact ⟨r, (cleanup_pass_sublist db).subset hr, hrd⟩
    exact foldl_cleanup_clean (distinctDevices db) db dev hdev0 hn
  exact foldl_cleanup_eq_of_clean _ _ hstep

/-- Witness for C4: idempotence at the concrete two-record table of
`slotDupState`, whose primary keys 0 and 1 are distinct. -/
theorem C4_witness :
    cleanup_pass (cleanup_pass slotDupState.db) = cleanup_pass slotDupState.db :=
  C4_reconciliation_idempotent slotDupState.db (by decide)

/-! ## Slot ring (C3): the amended invariants -/

theorem slotOf_valid (a : Nat) : isValidDay (slotOf a) = true := by
  have h1 : 0 ≤ ((a : Int) - 1) % 3 := Int.emod_nonneg _ (by norm_num)
  have h2 : ((a : Int) - 1) % 3 < 3 := Int.emod_lt_of_pos _ (by norm_num)
  have h3 : ((a : Int) - 1) % 3 = 0 ∨ ((a : Int) - 1) % 3 = 1 ∨ ((a : Int) - 1) % 3 = 2 := by
    omega
  rcases h3 with h | h | h <;> simp [slotOf, isValidDay, h]

/-- C3 (amended): every record the flush path writes for a device carries
a slot tag in 1..3, and when the absolute slot counter has moved past 3
the records of the slot being overwritten are deleted before the new
record is inserted, so right after such a call the overwritten slot holds
only the new record; at most one record per slot per device holds right
after a reconciliation pass (not at every observation point: between
reconciliations the flush path accumulates several records in the current
slot, as `C3_counterexample` exhibits). -/
theorem C3_ring_invariants :
    (∀ (st : ClientState) (d : String) (x : Readings) (now : Nat),
        ∀ r ∈ (manage_rolling_data st d x now true).db,
          r.device_id = d → isValidDay r.day_number = true) ∧
    (∀ (st : ClientState) (d : String) (x : Readings) (now : Nat),
        0 < manageDaysElapsed st d now →
        3 < (manageDayInfo st d now).absolute_day →
        ∀ r ∈ (manage_rolling_data st d x now true).db,
          r.device_id = d →
          r.day_number = slotOf (manageDayInfo st d now).absolute_day →
          r.id = st.nextId) ∧
    (∀ (db : List Row) (dev : String) (day : Int),
        (db.map Row.id).Nodup → countFor (cleanup_pass db) dev day ≤ 1) := by
  refine ⟨?_, ?_, ?_⟩
  · intro st d x now r hr hdev
    rw [manage_db_true] at hr
    rcases List.mem_append.mp hr with hcl | hnew
    · have h2 := (List.mem_filter.mp hcl).2
      simp [hdev] at h2
      exact h2
    · have heq : r = manageNewRow st d x now := by simpa using hnew
      rw [heq]
      exact slotOf_valid _
  · intro st d x now hdays habs r hr hdev hday
    rw [manage_db_true] at hr
    rcases List.mem_append.mp hr with hcl | hnew
    · exfalso
      simp only [manageClean] at hcl
      rw [if_pos ⟨hdays, habs⟩] at hcl
      have h1 := (List.mem_filter.mp hcl).1
      have h2 := (List.mem_filter.mp h1).2
      simp [hdev, hday] at h2
    · have heq : r = manageNewRow st d x now := by simpa using hnew
      rw [heq]
      rfl
  · intro db dev day hn
    by_cases hdev : dev ∈ distinctDevices db
    · exact (foldl_cleanup_clean (distinctDevices db) db dev hdev hn).2 day
    · have hnil : (cleanup_pass db).filter
          (fun r => r.device_id == dev && r.day_number == day) = [] := by
        rw [List.filter_eq_nil_iff]
        intro r hr hcon
        rw [Bool.and_eq_true, beq_iff_eq, beq_iff_eq] at hcon
        exact hdev (mem_distinctDevices.mpr ⟨r, (cleanup_pass_sublist db).subset hr, hcon.1⟩)
      simp [countFor, hnil]

end IoTClient

namespace IoTClient

/-! ## The flush tick (C1) -/

theorem filter_protected (db : List Row) (d : String) (c : Row → Bool) (q : Row → Bool)
    (hq : ∀ r, q r = true → (r.device_id == d) = false) :
    (db.filter fun r => !(r.device_id == d && c r)).filter q = db.filter q := by
  rw [List.filter_filter]
  apply List.filter_congr
  intro r _
  by_cases hqr : q r = true
  · simp [hqr, hq r hqr]
  · rw [Bool.not_eq_true] at hqr
    simp [hqr]

theorem deviceNewRows_append (db1 db2 : List Row) (e : String) (n : Nat) :
    deviceNewRows (db1 ++ db2) e n = deviceNewRows db1 e n ++ deviceNewRows db2 e n :=
  List.filter_append _ _

theorem deviceNewRows_nil_of_bound (db : List Row) (e : String) (n : Nat)
    (h : ∀ r ∈ db, r.device_id = e → r.id < n) : deviceNewRows db e n = [] := by
  rw [deviceNewRows, List.filter_eq_nil_iff]
  intro r hr hcon
  rw [Bool.and_eq_true, beq_iff_eq] at hcon
  have h1 := h r hr hcon.1
  have h2 := of_decide_eq_true hcon.2
  omega

theorem manage_other_newRows (st : ClientState) (d : String) (x : Readings) (now : Nat)
    (ok : Bool) (e : String) (n : Nat) (hne : d ≠ e) :
    deviceNewRows (manage_rolling_data st d x now ok).db e n = deviceNewRows st.db e n := by
  have hq : ∀ r : Row, (r.device_id == e && decide (n ≤ r.id)) = true →
      (r.device_id == d) = false := by
    intro r hr
    rw [Bool.and_eq_true, beq_iff_eq] at hr
    rw [beq_eq_false_iff_ne, hr.1]
    exact Ne.symm hne
  cases ok
  · rfl
  · rw [manage_db_true, deviceNewRows_append]
    have h1 : deviceNewRows [manageNewRow st d x now] e n = [] := by
      rw [deviceNewRows, List.filter_eq_nil_iff]
      intro r hr hcon
      rw [Bool.and_eq_true, beq_iff_eq] at hcon
      have heq : r = manageNewRow st d x now := by simpa using hr
      rw [heq] at hcon
      exact hne hcon.1
    have h2 : deviceNewRows (manageClean st d now) e n = deviceNewRows st.db e n := by
      simp only [deviceNewRows, manageClean]
      split
      · rw [filter_protected _ _ _ _ hq, filter_protected _ _ _ _ hq]
      · rw [filter_protected _ _ _ _ hq]
    rw [h1, h2, List.append_nil]

theorem tick_step_other (now : Nat) (dbOk : String → Bool) (st : ClientState)
    (p : String × List Readings) (e : String) (hne : p.1 ≠ e) (n : Nat) :
    deviceNewRows (tick_step now dbOk st p).db e n = deviceNewRows st.db e n ∧
    alookup e (tick_step now dbOk st p).telemetry_buffer = alookup e st.telemetry_buffer ∧
    alookup e (tick_step now dbOk st p).last_storage_time = alookup e st.last_storage_time ∧
    st.nextId ≤ (tick_step now dbOk st p).nextId ∧
    (∀ r ∈ (tick_step now dbOk st p).db, r ∈ st.db ∨ r.device_id = p.1) := by
  simp only [tick_step]
  split
  · exact ⟨rfl, rfl, rfl, Nat.le_refl _, fun r hr => Or.inl hr⟩
  · split
    · refine ⟨manage_other_newRows st p.1 _ now (dbOk p.1) e n hne, ?_, ?_,
        manage_nextId_mono st p.1 _ now (dbOk p.1), ?_⟩
      · rw [show ({ manage_rolling_data st p.1 (p.2.getLast?.getD emptyReadings) now (dbOk p.1)
            with
            last_storage_time := ainsert p.1 now (manage_rolling_data st p.1
              (p.2.getLast?.getD emptyReadings) now (dbOk p.1)).last_storage_time,
            telemetry_buffer := ainsert p.1 [] (manage_rolling_data st p.1
              (p.2.getLast?.getD emptyReadings) now
              (dbOk p.1)).telemetry_buffer } : ClientState).telemetry_buffer =
          ainsert p.1 [] (manage_rolling_data st p.1 (p.2.getLast?.getD emptyReadings) now
            (dbOk p.1)).telemetry_buffer from rfl]
        rw [alookup_ainsert_ne _ _ _ _ hne, manage_buffer_eq]
      · rw [show ({ manage_rolling_data st p.1 (p.2.getLast?.getD emptyReadings) now (dbOk p.1)
            with
            last_storage_time := ainsert p.1 now (manage_rolling_data st p.1
              (p.2.getLast?.getD emptyReadings) now (dbOk p.1)).last_storage_time,
            telemetry_buffer := ainsert p.1 [] (manage_rolling_data st p.1
              (p.2.getLast?.getD emptyReadings) now
              (dbOk p.1)).telemetry_buffer } : ClientState).last_storage_time =
          ainsert p.1 now (manage_rolling_data st p.1 (p.2.getLast?.getD emptyReadings) now
            (dbOk p.1)).last_storage_time from rfl]
        rw [alookup_ainsert_ne _ _ _ _ hne, manage_last_eq]
      · intro r hr
        cases hdb : dbOk p.1
        · rw [hdb] at hr
          exact Or.inl hr
        · rw [hdb, manage_db_true] at hr
          rcases List.mem_append.mp hr with hcl | hnew
          · exact Or.inl ((manageClean_sublist st p.1 now).subset hcl)
          · have heq : r = manageNewRow st p.1 (p.2.getLast?.getD emptyReadings) now := by
              simpa using hnew
            right
            rw [heq]
            rfl
    · exact ⟨rfl, rfl, rfl, Nat.le_refl _, fun r hr => Or.inl hr⟩

theorem tick_fold_preserve (now : Nat) (dbOk : String → Bool) (e : String) (n : Nat) :
    ∀ (todo : List (String × List Readings)) (s : ClientState),
      (∀ q ∈ todo, q.1 ≠ e) →
      deviceNewRows (todo.foldl (tick_step now dbOk) s).db e n = deviceNewRows s.db e n ∧
      alookup e (todo.foldl (tick_step now dbOk) s).telemetry_buffer =
        alookup e s.telemetry_buffer ∧
      alookup e (todo.foldl (tick_step now dbOk) s).last_storage_time =
        alookup e s.last_storage_time := by
  intro todo
  induction todo with
  | nil =>
    intro s _
    exact ⟨rfl, rfl, rfl⟩
  | cons q t ih =>
    intro s h
    simp only [List.foldl_cons]
    have hstep := tick_step_other now dbOk s q e (h q (by simp)) n
    have hrest := ih (tick_step now dbOk s q) fun x hx => h x (by simp [hx])
    exact ⟨hrest.1.trans hstep.1, hrest.2.1.trans hstep.2.1, hrest.2.2.trans hstep.2.2.1⟩

theorem tick_step_self (now : Nat) (dbOk : String → Bool) (st : ClientState)
    (p : String × List Readings) (hne : p.2 ≠ [])
    (hdue : 5 ≤ now - (alookup p.1 st.last_storage_time).getD 0)
    (hok : dbOk p.1 = true) (n : Nat) (hn : n ≤ st.nextId)
    (hbound : ∀ r ∈ st.db, r.device_id = p.1 → r.id < n) :
    deviceNewRows (tick_step now dbOk st p).db p.1 n =
      [manageNewRow st p.1 (p.2.getLast?.getD emptyReadings) now] ∧
    alookup p.1 (tick_step now dbOk st p).telemetry_buffer = some [] ∧
    alookup p.1 (tick_step now dbOk st p).last_storage_time = some now := by
  have hemp : p.2.isEmpty = false := by simp [List.isEmpty_iff, hne]
  simp only [tick_step, hemp, Bool.false_eq_true, if_false, hdue, if_true, hok]
  refine ⟨?_, alookup_ainsert_self _ _ _, alookup_ainsert_self _ _ _⟩
  rw [manage_db_true, deviceNewRows_append,
    deviceNewRows_nil_of_bound _ _ _
      (fun r hr hd => hbound r ((manageClean_sublist st p.1 now).subset hr) hd),
    List.nil_append]
  simp [deviceNewRows, manageNewRow, hn]

end IoTClient

namespace IoTClient

theorem tick_fold_main (now : Nat) (dbOk : String → Bool) :
    ∀ (todo : List (String × List Readings)) (s : ClientState) (n : Nat),
      (todo.map Prod.fst).Nodup →
      n ≤ s.nextId →
      (∀ q ∈ todo, ∀ r ∈ s.db, r.device_id = q.1 → r.id < n) →
      (∀ q ∈ todo, 5 ≤ now - (alookup q.1 s.last_storage_time).getD 0) →
      (∀ q ∈ todo, dbOk q.1 = true) →
      ∀ p ∈ todo,
        (p.2 = [] →
          deviceNewRows (todo.foldl (tick_step now dbOk) s).db p.1 n = [] ∧
          alookup p.1 (todo.foldl (tick_step now dbOk) s).telemetry_buffer =
            alookup p.1 s.telemetry_buffer ∧
          alookup p.1 (todo.foldl (tick_step now dbOk) s).last_storage_time =
            alookup p.1 s.last_storage_time) ∧
        (p.2 ≠ [] → ∃ w : Row,
          deviceNewRows (todo.foldl (tick_step now dbOk) s).db p.1 n = [w] ∧
          rowReadings w = p.2.getLast?.getD emptyReadings ∧
          w.timestamp = now ∧ w.is_connected = true ∧
          alookup p.1 (todo.foldl (tick_step now dbOk) s).telemetry_buffer = some [] ∧
          alookup p.1 (todo.foldl (tick_step now dbOk) s).last_storage_time = some now) := by
  intro todo
  induction todo with
  | nil =>
    intro s n _ _ _ _ _ p hp
    exact absurd hp (List.not_mem_nil _)
  | cons q t ih =>
    intro s n hnodup hle hbound hdue hok p hp
    simp only [List.foldl_cons]
    have hnodup2 : (t.map Prod.fst).Nodup := (List.nodup_cons.mp (by simpa using hnodup)).2
    have hq1_not_t : ∀ x ∈ t, x.1 ≠ q.1 := by
      intro x hx hcon
      exact (List.nodup_cons.mp (by simpa using hnodup)).1
        (hcon ▸ List.mem_map_of_mem Prod.fst hx)
    rcases List.mem_cons.mp hp with hpq | hpt
    · subst hpq
      by_cases hpe : p.2 = []
      · have hstep : tick_step now dbOk s p = s := by
          simp [tick_step, List.isEmpty_iff, hpe]
        rw [hstep]
        have hpres := tick_fold_preserve now dbOk p.1 n t s hq1_not_t
        constructor
        · intro _
          refine ⟨?_, hpres.2.1, hpres.2.2⟩
          rw [hpres.1]
          exact deviceNewRows_nil_of_bound _ _ _ fun r hr hd => hbound p (by simp) r hr hd
        · intro hcon
          exact absurd hpe hcon
      · have hself := tick_step_self now dbOk s p hpe (hdue p (by simp)) (hok p (by simp)) n
          hle (fun r hr hd => hbound p (by simp) r hr hd)
        have hpres := tick_fold_preserve now dbOk p.1 n t (tick_step now dbOk s p) hq1_not_t
        constructor
        · intro hcon
          exact absurd hcon hpe
        · intro _
          refine ⟨manageNewRow s p.1 (p.2.getLast?.getD emptyReadings) now, ?_, rfl, rfl, rfl,
            ?_, ?_⟩
          · rw [hpres.1, hself.1]
          · rw [hpres.2.1, hself.2.1]
          · rw [hpres.2.2, hself.2.2]
    · have hne : q.1 ≠ p.1 := Ne.symm (hq1_not_t p hpt)
      have hstep := tick_step_other now dbOk s q p.1 hne n
      have hle2 : n ≤ (tick_step now dbOk s q).nextId := le_trans hle hstep.2.2.2.1
      have hbound2 : ∀ x ∈ t, ∀ r ∈ (tick_step now dbOk s q).db, r.device_id = x.1 →
          r.id < n := by
        intro x hx r hr hd
        rcases hstep.2.2.2.2 r hr with hold | hqdev
        · exact hbound x (by simp [hx]) r hold hd
        · exact absurd (by rw [← hd, hqdev]) (hq1_not_t x hx)
      have hdue2 : ∀ x ∈ t, 5 ≤ now -
          (alookup x.1 (tick_step now dbOk s q).last_storage_time).getD 0 := by
        intro x hx
        have hpr := tick_step_other now dbOk s q x.1 (Ne.symm (hq1_not_t x hx)) n
        rw [hpr.2.2.1]
        exact hdue x (by simp [hx])
      have hok2 : ∀ x ∈ t, dbOk x.1 = true := fun x hx => hok x (by simp [hx])
      have hihres := ih (tick_step now dbOk s q) n hnodup2 hle2 hbound2 hdue2 hok2 p hpt
      constructor
      · intro hpe
        obtain ⟨ha, hb, hc⟩ := hihres.1 hpe
        exact ⟨ha, hb.trans hstep.2.1, hc.trans hstep.2.2.1⟩
      · exact hihres.2

/-- C1: at a flush tick at which every buffered device is due (its last
storage lies at least the 5-second flush interval in the past), every
device with a non-empty batch gets exactly one new persisted record (one
row with a fresh primary key), whose readings equal the most recent
sample of its batch - not the whole batch - and its batch is cleared to
empty; a device with an empty batch is skipped: no record is written for
it and its storage bookkeeping is untouched. -/
theorem C1_flush_persists_latest (st : ClientState) (now : Nat)
    (hnodup : (st.telemetry_buffer.map Prod.fst).Nodup)
    (hids : ∀ r ∈ st.db, r.id < st.nextId)
    (hdue : ∀ q ∈ st.telemetry_buffer, 5 ≤ now - (alookup q.1 st.last_storage_time).getD 0) :
    ∀ p ∈ st.telemetry_buffer,
      (p.2 = [] →
        deviceNewRows (periodic_storage_tick st now fun _ => true).db p.1 st.nextId = [] ∧
        alookup p.1 (periodic_storage_tick st now fun _ => true).telemetry_buffer =
          alookup p.1 st.telemetry_buffer ∧
        alookup p.1 (periodic_storage_tick st now fun _ => true).last_storage_time =
          alookup p.1 st.last_storage_time) ∧
      (p.2 ≠ [] → ∃ w : Row,
        deviceNewRows (periodic_storage_tick st now fun _ => true).db p.1 st.nextId = [w] ∧
        rowReadings w = p.2.getLast?.getD emptyReadings ∧
        w.timestamp = now ∧ w.is_connected = true ∧
        alookup p.1 (periodic_storage_tick st now fun _ => true).telemetry_buffer = some [] ∧
        alookup p.1 (periodic_storage_tick st now fun _ => true).last_storage_time =
          some now) :=
  tick_fold_main now (fun _ => true) st.telemetry_buffer st st.nextId hnodup (Nat.le_refl _)
    (fun _ _ r hr _ => hids r hr) hdue (fun _ _ => rfl)

/-- Witness for C1: the flush tick at `t = 10` on `tickState`: device
`D1`, with three buffered samples, gets exactly one new record holding
the third (latest) sample `rC` and its batch is cleared; device `D2`,
with an empty batch, is skipped. -/
theorem C1_witness :
    (∃ w : Row,
      deviceNewRows (periodic_storage_tick tickState 10 fun _ => true).db "D1"
        tickState.nextId = [w] ∧
      rowReadings w = rC ∧ w.timestamp = 10 ∧ w.is_connected = true ∧
      alookup "D1" (periodic_storage_tick tickState 10 fun _ => true).telemetry_buffer =
        some [] ∧
      alookup "D1" (periodic_storage_tick tickState 10 fun _ => true).last_storage_time =
        some 10) ∧
    deviceNewRows (periodic_storage_tick tickState 10 fun _ => true).db "D2"
        tickState.nextId = [] ∧
    alookup "D2" (periodic_storage_tick tickState 10 fun _ => true).telemetry_buffer =
      alookup "D2" tickState.telemetry_buffer ∧
    alookup "D2" (periodic_storage_tick tickState 10 fun _ => true).last_storage_time =
      alookup "D2" tickState.last_storage_time := by
  have h := C1_flush_persists_latest tickState 10 (by decide) (by decide) (by decide)
  constructor
  · have h1 := (h ("D1", [rA, rB, rC]) (by decide)).2 (by simp)
    simpa using h1
  · exact (h ("D2", []) (by decide)).1 rfl

end IoTClient

namespace Registry

theorem run_ops_inv (ops : List RegOp) :
    ∀ (l1 l2 : List String), l1.Nodup → l2.Nodup → (∀ x, x ∈ l1 ↔ x ∈ l2) →
      (ops.foldl apply_op ⟨l1⟩).devices.Nodup ∧
      (ops.foldl spec_step l2).Nodup ∧
      ∀ d, d ∈ (ops.foldl apply_op ⟨l1⟩).devices ↔ d ∈ ops.foldl spec_step l2 := by
  induction ops with
  | nil =>
    intro l1 l2 hn1 hn2 hiff
    exact ⟨hn1, hn2, hiff⟩
  | cons op t ih =>
    intro l1 l2 hn1 hn2 hiff
    simp only [List.foldl_cons]
    cases op with
    | reg e =>
      by_cases he : e ∈ l1
      · have he2 : e ∈ l2 := (hiff e).mp he
        have h1 : apply_op ⟨l1⟩ (RegOp.reg e) = ⟨l1⟩ := by
          simp [apply_op, register_device, he]
        have h2 : spec_step l2 (RegOp.reg e) = l2 := by
          simp [spec_step, he2]
        rw [h1, h2]
        exact ih l1 l2 hn1 hn2 hiff
      · have he2 : e ∉ l2 := fun h => he ((hiff e).mpr h)
        have h1 : apply_op ⟨l1⟩ (RegOp.reg e) = ⟨l1 ++ [e]⟩ := by
          simp [apply_op, register_device, he]
        have h2 : spec_step l2 (RegOp.reg e) = e :: l2 := by
          simp [spec_step, he2]
        rw [h1, h2]
        refine ih (l1 ++ [e]) (e :: l2) ?_ ?_ ?_
        · simp [List.nodup_append, hn1, he]
        · simp [List.nodup_cons, hn2, he2]
        · intro x
          simp only [List.mem_append, List.mem_singleton, List.mem_cons]
          rw [hiff x]
          tauto
    | unreg e =>
      by_cases he : e ∈ l1
      · have he2 : e ∈ l2 := (hiff e).mp he
        have h1 : apply_op ⟨l1⟩ (RegOp.unreg e) = ⟨l1.erase e⟩ := by
          simp [apply_op, unregister_device, he]
        have h2 : spec_step l2 (RegOp.unreg e) = l2.erase e := rfl
        rw [h1, h2]
        refine ih (l1.erase e) (l2.erase e) (hn1.erase e) (hn2.erase e) ?_
        intro x
        rw [List.Nodup.mem_erase_iff hn1, List.Nodup.mem_erase_iff hn2, hiff x]
      · have he2 : e ∉ l2 := fun h => he ((hiff e).mpr h)
        have h1 : apply_op ⟨l1⟩ (RegOp.unreg e) = ⟨l1⟩ := by
          simp [apply_op, unregister_device, he]
        have h2 : spec_step l2 (RegOp.unreg e) = l2 := by
          simp only [spec_step]
          exact List.erase_of_not_mem he2
        rw [h1, h2]
        exact ih l1 l2 hn1 hn2 hiff

/-- C9: over any sequence of `Register`/`Unregister` calls, `ListDevices`
reflects exactly the currently-registered set (the set obtained by set
insertion on register and set removal on unregister); `Register` fails
with `AlreadyRegistered` exactly when the device is present, and
`Unregister` fails with `NotFound` exactly when it is absent. -/
theorem C9_registry_reflects_ops :
    (∀ (ops : List RegOp) (d : String),
        d ∈ list_devices (run_ops ops) ↔ d ∈ spec_registered ops) ∧
    (∀ (r : State) (d : String),
        register_device r d = Except.error RegError.alreadyRegistered ↔
          d ∈ list_devices r) ∧
    (∀ (r : State) (d : String),
        unregister_device r d = Except.error RegError.notFound ↔
          d ∉ list_devices r) := by
  refine ⟨?_, ?_, ?_⟩
  · intro ops d
    exact (run_ops_inv ops [] [] (by simp) (by simp) fun x => Iff.rfl).2.2 d
  · intro r d
    by_cases hd : d ∈ r.devices
    · simp [register_device, list_devices, hd]
    · simp [register_device, list_devices, hd]
  · intro r d
    by_cases hd : d ∈ r.devices
    · simp [unregister_device, list_devices, hd]
    · simp [unregister_device, list_devices, hd]

end Registry
